import Mathlib

/-!
Shallow embedding of the usage-telemetry aggregator `logStat` from
`lib/classes/Utils.js`, together with the surrounding data model
(service configuration, event bindings, authorizer shapes, user config).

JavaScript loose typing is modelled explicitly:
* numeric config fields (`memorySize`, `timeout`) are `NumField`:
  absent/undefined, a non-numeric value (whose `Number(...)` image is NaN),
  or an integer value; the `a || b || default` chain treats NaN and 0 as falsy;
* optional string fields are `Option String`; JavaScript truthiness of a
  string is "nonempty", of an object is "present";
* an event binding is a single-key mapping (key = event-type name), so
  `event.http` is the descriptor exactly when that key is "http";
* `String.prototype.includes` is modelled by `containsSub`, a contiguous
  substring occurrence check on the character lists;
* ambient process state in the payload's `general` section (timestamp,
  timezone, OS, node version, CI detection) is outside the embedding; the
  deterministic fields (`userId`, `context`, `platformId`) are kept.
-/

namespace Serverless

/-- A JS value sitting in a numeric configuration slot: absent (undefined),
a value whose `Number(...)` conversion is NaN, or an integer. -/
inductive NumField
  | missing
  | nan
  | val (n : Int)
deriving DecidableEq, Repr

/-- `Number(v)`: `none` models NaN. -/
def jsNumber : NumField → Option Int
  | .missing => none
  | .nan => none
  | .val n => some n

/-- `x || d` for a JS number `x`: NaN and 0 are falsy. -/
def numOr (x : Option Int) (d : Int) : Int :=
  match x with
  | some n => if n = 0 then d else n
  | none => d

/-- JS truthiness of an optional string (`undefined`/`null` and `""` are falsy). -/
def strTruthy : Option String → Bool
  | some s => s ≠ ""
  | none => false

/-- `pat` is an initial segment of `s` (character lists). -/
def startsWithL (pat s : List Char) : Bool :=
  match pat, s with
  | [], _ => true
  | _ :: _, [] => false
  | c :: cs, d :: ds => c = d && startsWithL cs ds

/-- `pat` occurs somewhere in `s` (character lists). -/
def containsL (pat : List Char) : List Char → Bool
  | [] => startsWithL pat []
  | c :: rest => startsWithL pat (c :: rest) || containsL pat rest

/-- `s.includes(pat)`: `pat` occurs as a contiguous substring of `s`. -/
def containsSub (s pat : String) : Bool :=
  containsL pat.data s.data

/-- `s.toUpperCase()` on the ASCII strings this code compares (character-wise
upper-casing). -/
def jsToUpper (s : String) : String :=
  String.mk (s.data.map Char.toUpper)

/-- The value of an `authorizer` field of an `http` event descriptor:
either a string, or an object with optional `type`, `name`, `arn` fields. -/
inductive AuthorizerV
  | strA (s : String)
  | objA (type : Option String) (name : Option String) (arn : Option String)
deriving DecidableEq, Repr

/-- JS truthiness of an authorizer value (an object is truthy, a string is
truthy iff nonempty). -/
def authTruthy : AuthorizerV → Bool
  | .strA s => s ≠ ""
  | .objA _ _ _ => true

/-- An event descriptor (the value under the event-type key): `null`,
a plain string (e.g. `http: GET users`), or an object possibly carrying
an `authorizer` field. -/
inductive EvDesc
  | nullD
  | strD (s : String)
  | objD (authorizer : Option AuthorizerV)
deriving DecidableEq, Repr

/-- JS truthiness of an event descriptor. -/
def descTruthy : EvDesc → Bool
  | .nullD => false
  | .strD s => s ≠ ""
  | .objD _ => true

/-- An event binding: a single-key mapping from event-type name to descriptor
(`Object.keys(event)[0]` is `name`). -/
structure EventBinding where
  name : String
  desc : EvDesc
deriving DecidableEq, Repr

/-- `event.http && event.http.authorizer` (lines 205, 121-232): the authorizer
reached by the classification code, `none` when any link is falsy or absent. -/
def httpAuth (e : EventBinding) : Option AuthorizerV :=
  if e.name = "http" then
    if descTruthy e.desc then
      match e.desc with
      | .objD (some a) => if authTruthy a then some a else none
      | _ => none
    else none
  else none

/-- One function of the service: optional numeric `memorySize`/`timeout`
and an optional event list (`none` models an absent or `null` `events`
field; `some []` models a declared empty list, which is truthy in JS). -/
structure FunctionSpec where
  memorySize : NumField := .missing
  timeout : NumField := .missing
  events : Option (List EventBinding) := none
deriving DecidableEq, Repr

/-- The `provider` section. -/
structure Provider where
  name : Option String := none
  runtime : Option String := none
  stage : Option String := none
  region : Option String := none
  memorySize : NumField := .missing
  timeout : NumField := .missing
  variableSyntax : Option String := none
deriving DecidableEq, Repr

/-- The `resources` section: key lists of `resources.Resources` and
`resources.Outputs` (`none` = absent or `null`). -/
structure ResourcesSection where
  Resources : Option (List String) := none
  Outputs : Option (List String) := none
deriving DecidableEq, Repr

/-- The service configuration snapshot consumed by `logStat`. -/
structure Service where
  provider : Provider
  functions : List FunctionSpec := []
  resources : Option ResourcesSection := none
  plugins : Option (List String) := none
  custom : Bool := false
deriving DecidableEq, Repr

/-- CLI input: option mapping and command words. -/
structure ProcessedInput where
  options : List (String × String) := []
  commands : List String := []
deriving DecidableEq, Repr

/-- The full first argument of `logStat`. -/
structure ServerlessInput where
  service : Service
  processedInput : ProcessedInput := {}
  servicePath : Option String := none
  version : String := ""
deriving DecidableEq, Repr

/-- The persisted user configuration returned by `configUtils.getConfig()`. -/
structure Config where
  frameworkId : String := ""
  trackingDisabled : Bool := false
  userId : Option String := none
deriving DecidableEq, Repr

/-- Per-function memory/timeout pair (lines 160-177). -/
structure MemTimeout where
  memorySize : Int
  timeout : Int
deriving DecidableEq, Repr

/-- `Number(func.memorySize) || Number(provider.memorySize) || 1024`, and the
same chain for `timeout` with final default 6 (lines 163-168). -/
def memTimeoutOf (f : FunctionSpec) (p : Provider) : MemTimeout :=
  { memorySize := numOr (jsNumber f.memorySize) (numOr (jsNumber p.memorySize) 1024)
    timeout := numOr (jsNumber f.timeout) (numOr (jsNumber p.timeout) 6) }

/-- The ordered `memorySizeAndTimeoutPerFunction` sequence. -/
def memorySizeAndTimeoutPerFunction (fs : List FunctionSpec) (p : Provider) :
    List MemTimeout :=
  fs.map (fun f => memTimeoutOf f p)

/-- `if (func.events)`: the event lists of the functions whose `events` field
is truthy, in declaration order. -/
def eventLists (fs : List FunctionSpec) : List (List EventBinding) :=
  fs.filterMap (·.events)

/-- `eventNamesPerFunction`: one inner name sequence per function with a
truthy `events` field (lines 185-237). -/
def eventNamesPerFunction (fs : List FunctionSpec) : List (List String) :=
  (eventLists fs).map (fun evs => evs.map (·.name))

/-- All event-type names of the service, in processing order. -/
def allEventNames (fs : List FunctionSpec) : List String :=
  (eventNamesPerFunction fs).flatten

/-- All event bindings of the service, in processing order. -/
def allEventBindings (fs : List FunctionSpec) : List EventBinding :=
  (eventLists fs).flatten

/-- One tally step (lines 194-202): increment the first entry with this name,
else append a new `(name, 1)` entry at the end. -/
def tallyAdd (t : List (String × Nat)) (name : String) : List (String × Nat) :=
  match t with
  | [] => [(name, 1)]
  | (m, c) :: rest =>
      if m = name then (m, c + 1) :: rest else (m, c) :: tallyAdd rest name

/-- `numberOfEventsPerType`: the service-wide event tally. -/
def numberOfEventsPerType (fs : List FunctionSpec) : List (String × Nat) :=
  (allEventNames fs).foldl tallyAdd []

/-- The three OR-accumulated authorizer flags. -/
structure AwsInfo where
  hasIAMAuthorizer : Bool
  hasCustomAuthorizer : Bool
  hasCognitoAuthorizer : Bool
deriving DecidableEq, Repr

/-- IAM check (lines 206-211): a string equal to "AWS_IAM" after upcasing, or
an object with a truthy `type` field equal to "AWS_IAM" after upcasing
(a string authorizer has no `type` property, so only the first disjunct
can fire for strings). -/
def isIAMAuth : AuthorizerV → Bool
  | .strA s => jsToUpper s == "AWS_IAM"
  | .objA t _ _ => strTruthy t && jsToUpper (t.getD "") == "AWS_IAM"

/-- Custom check (lines 218-225): a string that is not "AWS_IAM" (upcased) and
does not contain "arn:aws:cognito-idp"; or an object with a truthy `name`;
or an object with a truthy `arn` containing "arn:aws:lambda". -/
def isCustomAuth : AuthorizerV → Bool
  | .strA s => jsToUpper s != "AWS_IAM" && !containsSub s "arn:aws:cognito-idp"
  | .objA _ n r =>
      strTruthy n || (strTruthy r && containsSub (r.getD "") "arn:aws:lambda")

/-- Cognito check (lines 226-231): a string containing "arn:aws:cognito-idp",
or an object with a truthy `arn` containing it. -/
def isCognitoAuth : AuthorizerV → Bool
  | .strA s => containsSub s "arn:aws:cognito-idp"
  | .objA _ _ r => strTruthy r && containsSub (r.getD "") "arn:aws:cognito-idp"

/-- Fold step for the three flags over one event binding. -/
def classifyEvent (c : AwsInfo) (e : EventBinding) : AwsInfo :=
  match httpAuth e with
  | none => c
  | some a =>
      { hasIAMAuthorizer := c.hasIAMAuthorizer || isIAMAuth a
        hasCustomAuthorizer := c.hasCustomAuthorizer || isCustomAuth a
        hasCognitoAuthorizer := c.hasCognitoAuthorizer || isCognitoAuth a }

/-- The accumulated authorizer flags of the whole service (lines 182-238). -/
def authFlags (fs : List FunctionSpec) : AwsInfo :=
  (allEventBindings fs).foldl classifyEvent ⟨false, false, false⟩

/-- `o && Object.keys(o).length`: the mapping is truthy and has a key. -/
def keysNonempty (o : Option (List String)) : Bool :=
  match o with
  | some ks => ks.length != 0
  | none => false

/-- Lines 240-248: `resources.Resources` truthy with at least one key, or
`resources.Outputs` truthy with at least one key. -/
def hasCustomResourcesDefined (res : Option ResourcesSection) : Bool :=
  match res with
  | none => false
  | some r => keysNonempty r.Resources || keysNonempty r.Outputs

/-- The default variable-interpolation pattern (line 251). -/
def defaultVariableSyntax : String :=
  "\\$\x7b([ :a-zA-Z0-9._,\\-\\/\\(\\)]+?)\x7d"

/-- Lines 250-257: a truthy `variableSyntax` differing from the default. -/
def hasCustomVariableSyntaxDefined (p : Provider) : Bool :=
  match p.variableSyntax with
  | some s => s ≠ "" && s ≠ defaultVariableSyntax
  | none => false

/-- The whitelisted option keys (line 145). -/
def whitelistedOptionKeys : List String := ["help", "disable", "enable"]

/-- Lines 144-155: keep exactly the whitelisted options. -/
def filteredOptions (options : List (String × String)) : List (String × String) :=
  options.filter (fun kv => whitelistedOptionKeys.contains kv.1)

/-- `command` sub-section of the payload. -/
structure CommandInfo where
  name : String
  filteredOptions : List (String × String)
  isRunInService : Bool
deriving DecidableEq, Repr

/-- `service` sub-section of the payload. -/
structure ServiceInfo where
  numberOfCustomPlugins : Nat
  hasCustomResourcesDefined : Bool
  hasVariablesInCustomSectionDefined : Bool
  hasCustomVariableSyntaxDefined : Bool
deriving DecidableEq, Repr

/-- `provider` sub-section of the payload. -/
structure ProviderInfo where
  name : Option String
  runtime : Option String
  stage : Option String
  region : Option String
deriving DecidableEq, Repr

/-- `functions` sub-section of the payload. -/
structure FunctionsInfo where
  numberOfFunctions : Nat
  memorySizeAndTimeoutPerFunction : List MemTimeout
deriving DecidableEq, Repr

/-- `events` sub-section of the payload. -/
structure EventsInfo where
  numberOfEvents : Nat
  numberOfEventsPerType : List (String × Nat)
  eventNamesPerFunction : List (List String)
deriving DecidableEq, Repr

/-- The deterministic part of the `general` sub-section; the ambient process
fields (timestamp, timezone, OS, versions, CI flags) are outside the
embedding. -/
structure GeneralInfo where
  userId : String
  context : String
  serverlessVersion : String
  platformId : Option String
deriving DecidableEq, Repr

/-- `data.properties`. -/
structure Properties where
  version : Nat
  command : CommandInfo
  service : ServiceInfo
  provider : ProviderInfo
  functions : FunctionsInfo
  events : EventsInfo
  general : GeneralInfo
  aws : Option AwsInfo
deriving DecidableEq, Repr

/-- The emitted payload. -/
structure Data where
  userId : String
  event : String
  properties : Properties
deriving DecidableEq, Repr

/-- `context = context || 'usage'` (line 123). -/
def contextOr (ctx : Option String) : String :=
  match ctx with
  | some c => if c = "" then "usage" else c
  | none => "usage"

/-- Lines 259-317: assemble the payload (the branch taken when tracking is
enabled). The provider used for the memory/timeout defaults is the same
`service.provider` (in the source, `this.serverless` and the `serverless`
argument are the same object at the call sites). -/
def buildData (config : Config) (serverless : ServerlessInput) (ctx : Option String) :
    Data :=
  let service := serverless.service
  let provider := service.provider
  let functions := service.functions
  { userId := config.frameworkId
    event := "framework_stat"
    properties :=
      { version := 2
        command :=
          { name := String.intercalate " " serverless.processedInput.commands
            filteredOptions := filteredOptions serverless.processedInput.options
            isRunInService := strTruthy serverless.servicePath }
        service :=
          { numberOfCustomPlugins := (service.plugins.getD []).length
            hasCustomResourcesDefined := hasCustomResourcesDefined service.resources
            hasVariablesInCustomSectionDefined := service.custom
            hasCustomVariableSyntaxDefined := hasCustomVariableSyntaxDefined provider }
        provider :=
          { name := provider.name
            runtime := provider.runtime
            stage := provider.stage
            region := provider.region }
        functions :=
          { numberOfFunctions := functions.length
            memorySizeAndTimeoutPerFunction :=
              memorySizeAndTimeoutPerFunction functions provider }
        events :=
          { numberOfEvents := (numberOfEventsPerType functions).length
            numberOfEventsPerType := numberOfEventsPerType functions
            eventNamesPerFunction := eventNamesPerFunction functions }
        general :=
          { userId := config.frameworkId
            context := contextOr ctx
            serverlessVersion := serverless.version
            platformId := if strTruthy config.userId then config.userId else none }
        aws :=
          if strTruthy provider.name && jsToUpper (provider.name.getD "") == "AWS" then
            some (authFlags functions)
          else none } }

/-- `logStat` (lines 121-325): gate on the tracking flag, else build the
payload; the resolved value is `none` exactly when tracking is disabled. -/
def logStat (config : Config) (serverless : ServerlessInput) (ctx : Option String) :
    Option Data :=
  if config.trackingDisabled then none
  else some (buildData config serverless ctx)

/-- Lines 320-324: `segment.track` is invoked on the resolved value exactly
when it is truthy; the list of emitted payloads. -/
def segmentTrackCalls (config : Config) (serverless : ServerlessInput)
    (ctx : Option String) : List Data :=
  match logStat config serverless ctx with
  | some d => [d]
  | none => []

/-- Modelled from the spec: `configUtils.getConfig` lives in `lib/utils/config`,
which is not among the given sources; only its call site in `logStat` is.
Per the error-handling design, a local configuration-read failure must not
propagate: on read failure, tracking is treated as effectively disabled. -/
def getConfig : Except String Config → Config
  | .ok c => c
  | .error _ => { frameworkId := "", trackingDisabled := true, userId := none }

/-- `logStat` together with the configuration read that begins it. -/
def logStatWithRead (r : Except String Config) (serverless : ServerlessInput)
    (ctx : Option String) : Option Data :=
  logStat (getConfig r) serverless ctx

/-- The emitted payloads of a `logStat` call that begins with the given
configuration-read outcome. -/
def segmentTrackCallsWithRead (r : Except String Config)
    (serverless : ServerlessInput) (ctx : Option String) : List Data :=
  segmentTrackCalls (getConfig r) serverless ctx

/-! Example inputs used in concrete instantiations. -/

/-- A provider named "aws" with no defaults. -/
def exProvider : Provider := { name := some "aws" }

/-- A bare service. -/
def exService : Service := { provider := exProvider }

/-- A bare `logStat` input. -/
def exInput : ServerlessInput := { service := exService }

/-- A user configuration with tracking enabled. -/
def exConfig : Config := { frameworkId := "fid-1", trackingDisabled := false }

/-- Per-binding IAM contribution: the flag bit this binding ORs in. -/
def evIAM (e : EventBinding) : Bool := (httpAuth e).any isIAMAuth

/-- Per-binding custom-authorizer contribution. -/
def evCustom (e : EventBinding) : Bool := (httpAuth e).any isCustomAuth

/-- Per-binding Cognito contribution. -/
def evCognito (e : EventBinding) : Bool := (httpAuth e).any isCognitoAuth

/-- Spec-side view (from the claim's words): the authorizer carried by an
http event binding, with no truthiness filtering. -/
def specAuthOf (e : EventBinding) : Option AuthorizerV :=
  if e.name = "http" then
    match e.desc with
    | .objD (some a) => some a
    | _ => none
  else none

/-- Spec-side view: all authorizers of http event bindings of the service. -/
def specHttpAuthorizers (fs : List FunctionSpec) : List AuthorizerV :=
  (allEventBindings fs).filterMap specAuthOf

/-- Spec-side IAM predicate, following the claim's words: the authorizer is
the string "AWS_IAM" compared case-insensitively, or an object whose `type`
field equals "AWS_IAM" case-insensitively. -/
def specIsIAM : AuthorizerV → Bool
  | .strA s => jsToUpper s == "AWS_IAM"
  | .objA t _ _ => t.any (fun ts => jsToUpper ts == "AWS_IAM")

/-- First lookup of a tally entry by name. -/
def lookupC : List (String × Nat) → String → Option Nat
  | [], _ => none
  | (m, c) :: rest, n => if m = n then some c else lookupC rest n

/-- Adding `k` occurrences to an optional running count. -/
def addCount (o : Option Nat) (k : Nat) : Option Nat :=
  match o with
  | some c => some (c + k)
  | none => if k = 0 then none else some k

/-- A function declaring one "http" and one "s3" event. -/
def exHttpS3Func : FunctionSpec :=
  { events := some [⟨"http", .objD none⟩, ⟨"s3", .objD none⟩] }

/-- Two functions, each declaring one "http" and one "s3" event. -/
def exTwoFuncs : List FunctionSpec := [exHttpS3Func, exHttpS3Func]

/-- One function declaring three "http" events. -/
def exThreeHttp : List FunctionSpec :=
  [{ events := some [⟨"http", .objD none⟩, ⟨"http", .objD none⟩,
      ⟨"http", .objD none⟩] }]

/-- A function whose `events` field is a declared empty list. -/
def exEmptyEventsFunc : FunctionSpec := { events := some [] }

/-!  Theorems settling the claims. -/

/-- C1: for every service configuration and CLI input, if the persisted user
configuration has the tracking-disabled flag set, `logStat` resolves to the
empty result and `segment.track` is never invoked. -/
theorem logStat_trackingDisabled_empty_no_emit
    (config : Config) (serverless : ServerlessInput) (ctx : Option String)
    (h : config.trackingDisabled = true) :
    logStat config serverless ctx = none ∧
      segmentTrackCalls config serverless ctx = [] := by
  have h1 : logStat config serverless ctx = none := by
    simp [logStat, h]
  exact ⟨h1, by simp [segmentTrackCalls, h1]⟩

/-- Witness for C1 at a concrete disabled configuration. -/
theorem logStat_trackingDisabled_empty_no_emit_witness :
    logStat ⟨"fid-1", true, none⟩ exInput none = none ∧
      segmentTrackCalls ⟨"fid-1", true, none⟩ exInput none = [] :=
  logStat_trackingDisabled_empty_no_emit ⟨"fid-1", true, none⟩ exInput none rfl

/-- C8: when the local configuration read fails, `logStat` completes with the
empty result and emits nothing, for every service input — the failure is not
propagated (the `getConfig` collaborator is modelled from the spec). -/
theorem logStat_configReadFailure_no_emit
    (e : String) (serverless : ServerlessInput) (ctx : Option String) :
    logStatWithRead (.error e) serverless ctx = none ∧
      segmentTrackCallsWithRead (.error e) serverless ctx = [] := by
  constructor
  · simp [logStatWithRead, getConfig, logStat]
  · simp [segmentTrackCallsWithRead, segmentTrackCalls, logStatWithRead,
      getConfig, logStat]

/-- `keysNonempty` means a present mapping with at least one key. -/
theorem keysNonempty_iff (o : Option (List String)) :
    keysNonempty o = true ↔ ∃ ks, o = some ks ∧ ks ≠ [] := by
  cases o with
  | none => simp [keysNonempty]
  | some ks =>
      simp [keysNonempty]

/-- C6: `hasCustomResourcesDefined` is true iff `resources.Resources` exists
with at least one key or `resources.Outputs` exists with at least one key;
it is true with a one-key `Resources` and false with no `resources` section. -/
theorem hasCustomResourcesDefined_iff_nonempty_keys
    (res : Option ResourcesSection) :
    (hasCustomResourcesDefined res = true ↔
      (∃ r ks, res = some r ∧ r.Resources = some ks ∧ ks ≠ []) ∨
      (∃ r ks, res = some r ∧ r.Outputs = some ks ∧ ks ≠ [])) ∧
    hasCustomResourcesDefined
      (some { Resources := some ["Res1"], Outputs := none }) = true ∧
    hasCustomResourcesDefined none = false := by
  refine ⟨?_, by decide, rfl⟩
  cases res with
  | none => simp [hasCustomResourcesDefined]
  | some r =>
      simp only [hasCustomResourcesDefined, Bool.or_eq_true, keysNonempty_iff]
      constructor
      · rintro (⟨ks, hks, hne⟩ | ⟨ks, hks, hne⟩)
        · exact Or.inl ⟨r, ks, rfl, hks, hne⟩
        · exact Or.inr ⟨r, ks, rfl, hks, hne⟩
      · rintro (⟨r2, ks, hr, hks, hne⟩ | ⟨r2, ks, hr, hks, hne⟩) <;>
          cases hr
        · exact Or.inl ⟨ks, hks, hne⟩
        · exact Or.inr ⟨ks, hks, hne⟩

/-- Witness for C6 at a concrete one-key `Resources` section. -/
theorem hasCustomResourcesDefined_iff_nonempty_keys_witness :
    hasCustomResourcesDefined
      (some { Resources := some ["MyBucket"], Outputs := none }) = true :=
  ((hasCustomResourcesDefined_iff_nonempty_keys
      (some { Resources := some ["MyBucket"], Outputs := none })).1).mpr
    (Or.inl ⟨_, ["MyBucket"], rfl, rfl, by simp⟩)

/-- C9: the `aws` sub-section is attached to the payload iff the provider
name, compared case-insensitively, equals "AWS"; otherwise (including an
absent provider name) it is absent. -/
theorem aws_section_iff_provider_aws
    (config : Config) (serverless : ServerlessInput) (ctx : Option String) :
    (buildData config serverless ctx).properties.aws ≠ none ↔
      ∃ nm, serverless.service.provider.name = some nm ∧ jsToUpper nm = "AWS" := by
  cases hn : serverless.service.provider.name with
  | none => simp [buildData, hn, strTruthy]
  | some nm =>
      by_cases he : nm = ""
      · subst he
        simp [buildData, hn, strTruthy]
        intro h
        exact absurd h (by decide)
      · by_cases hu : jsToUpper nm = "AWS"
        · simp [buildData, hn, strTruthy, he, hu]
        · simp [buildData, hn, strTruthy, he, hu]

/-- Witness for C9: provider "aws" yields the `aws` sub-section. -/
theorem aws_section_iff_provider_aws_witness :
    (buildData exConfig exInput none).properties.aws ≠ none :=
  (aws_section_iff_provider_aws exConfig exInput none).mpr
    ⟨"aws", rfl, by decide⟩

/-- `x || y` keeps a truthy (nonzero) number. -/
theorem numOr_of_ne_zero (n d : Int) (h : n ≠ 0) : numOr (some n) d = n := by
  simp [numOr, h]

/-- `x || y` falls through on a falsy (NaN or 0) number. -/
theorem numOr_of_falsy (x : Option Int) (d : Int)
    (h : x = none ∨ x = some 0) : numOr x d = d := by
  rcases h with h | h <;> simp [numOr, h]

/-- C2 counterexample: a function-level `memorySize`/`timeout` of `0` is
present and numeric, yet the computed pair is the default `{1024, 6}`,
not `{0, 0}` — the `||` chain treats `0` as falsy and skips it. -/
theorem memTimeout_zero_counterexample :
    jsNumber (FunctionSpec.memorySize
      { memorySize := .val 0, timeout := .val 0 }) = some 0 ∧
    memTimeoutOf { memorySize := .val 0, timeout := .val 0 } {} = ⟨1024, 6⟩ ∧
    memTimeoutOf { memorySize := .val 0, timeout := .val 0 } {} ≠ ⟨0, 0⟩ := by
  refine ⟨rfl, rfl, ?_⟩
  decide

/-- C2 amended: the computed `memorySize` is the function-level value when it
converts to a nonzero number, else the provider-level value when that
converts to a nonzero number, else 1024; `timeout` follows the same chain
with final default 6 (a value converting to 0 falls through like a missing
or non-numeric one); with nothing set anywhere the pair is `{1024, 6}`, and
the computation is total, so no combination of values throws. -/
theorem memTimeout_fallback_chain (f : FunctionSpec) (p : Provider) :
    (∀ n : Int, jsNumber f.memorySize = some n → n ≠ 0 →
        (memTimeoutOf f p).memorySize = n) ∧
    (∀ m : Int, (jsNumber f.memorySize = none ∨ jsNumber f.memorySize = some 0) →
        jsNumber p.memorySize = some m → m ≠ 0 →
        (memTimeoutOf f p).memorySize = m) ∧
    ((jsNumber f.memorySize = none ∨ jsNumber f.memorySize = some 0) →
        (jsNumber p.memorySize = none ∨ jsNumber p.memorySize = some 0) →
        (memTimeoutOf f p).memorySize = 1024) ∧
    (∀ n : Int, jsNumber f.timeout = some n → n ≠ 0 →
        (memTimeoutOf f p).timeout = n) ∧
    (∀ m : Int, (jsNumber f.timeout = none ∨ jsNumber f.timeout = some 0) →
        jsNumber p.timeout = some m → m ≠ 0 →
        (memTimeoutOf f p).timeout = m) ∧
    ((jsNumber f.timeout = none ∨ jsNumber f.timeout = some 0) →
        (jsNumber p.timeout = none ∨ jsNumber p.timeout = some 0) →
        (memTimeoutOf f p).timeout = 6) ∧
    (f.memorySize = .missing → p.memorySize = .missing →
        f.timeout = .missing → p.timeout = .missing →
        memTimeoutOf f p = ⟨1024, 6⟩) := by
  refine ⟨?_, ?_, ?_, ?_, ?_, ?_, ?_⟩
  · intro n hn hz
    simp [memTimeoutOf, hn, numOr_of_ne_zero n _ hz]
  · intro m hf hp hz
    simp [memTimeoutOf, numOr_of_falsy _ _ hf, hp, numOr_of_ne_zero m _ hz]
  · intro hf hp
    simp [memTimeoutOf, numOr_of_falsy _ _ hf, numOr_of_falsy _ _ hp]
  · intro n hn hz
    simp [memTimeoutOf, hn, numOr_of_ne_zero n _ hz]
  · intro m hf hp hz
    simp [memTimeoutOf, numOr_of_falsy _ _ hf, hp, numOr_of_ne_zero m _ hz]
  · intro hf hp
    simp [memTimeoutOf, numOr_of_falsy _ _ hf, numOr_of_falsy _ _ hp]
  · intro h1 h2 h3 h4
    simp [memTimeoutOf, h1, h2, h3, h4, jsNumber, numOr]

/-- Witness for the amended C2: a set value of 512 is kept, and with nothing
set anywhere the pair is `{1024, 6}`. -/
theorem memTimeout_fallback_chain_witness :
    (memTimeoutOf { memorySize := .val 512 } {}).memorySize = 512 ∧
    memTimeoutOf {} {} = ⟨1024, 6⟩ :=
  ⟨(memTimeout_fallback_chain { memorySize := .val 512 } {}).1 512 rfl
      (by decide),
   (memTimeout_fallback_chain {} {}).2.2.2.2.2.2 rfl rfl rfl rfl⟩

/-- One classification step ORs in the per-binding contributions. -/
theorem classifyEvent_eq (c : AwsInfo) (e : EventBinding) :
    classifyEvent c e =
      ⟨c.hasIAMAuthorizer || evIAM e,
       c.hasCustomAuthorizer || evCustom e,
       c.hasCognitoAuthorizer || evCognito e⟩ := by
  cases c
  cases h : httpAuth e <;>
    simp [classifyEvent, evIAM, evCustom, evCognito, h, Option.any]

/-- The classification fold ORs the per-binding contributions across the list. -/
theorem foldl_classifyEvent (l : List EventBinding) (c : AwsInfo) :
    l.foldl classifyEvent c =
      ⟨c.hasIAMAuthorizer || l.any evIAM,
       c.hasCustomAuthorizer || l.any evCustom,
       c.hasCognitoAuthorizer || l.any evCognito⟩ := by
  induction l generalizing c with
  | nil => cases c; simp
  | cons e l ih =>
      rw [List.foldl_cons, classifyEvent_eq, ih]
      simp [Bool.or_assoc]

/-- The service flags are `any` over the bindings. -/
theorem authFlags_eq_any (fs : List FunctionSpec) :
    authFlags fs =
      ⟨(allEventBindings fs).any evIAM,
       (allEventBindings fs).any evCustom,
       (allEventBindings fs).any evCognito⟩ := by
  simp [authFlags, foldl_classifyEvent]

/-- `any` over a `filterMap` is `any` of the optional image. -/
theorem any_filterMap {α β : Type} (l : List α) (g : α → Option β)
    (f : β → Bool) :
    (l.filterMap g).any f = l.any (fun a => (g a).any f) := by
  induction l with
  | nil => rfl
  | cons a l ih =>
      cases h : g a <;> simp [List.filterMap_cons, h, ih, Option.any]

/-- The per-binding IAM bit seen by the code equals the spec-side predicate on
the binding's authorizer: the code's extra truthiness guard only drops the
empty-string authorizer, which is not IAM anyway. -/
theorem evIAM_eq_spec (e : EventBinding) :
    evIAM e = (specAuthOf e).any specIsIAM := by
  obtain ⟨name, desc⟩ := e
  by_cases hn : name = "http"
  · cases desc with
    | nullD => simp [evIAM, httpAuth, specAuthOf, hn, descTruthy]
    | strD s =>
        by_cases hs : s = "" <;>
          simp [evIAM, httpAuth, specAuthOf, hn, descTruthy, hs]
    | objD a =>
        cases a with
        | none => simp [evIAM, httpAuth, specAuthOf, hn, descTruthy]
        | some a =>
            cases a with
            | strA s =>
                by_cases hs : s = ""
                · subst hs
                  simp [evIAM, httpAuth, specAuthOf, hn, descTruthy, authTruthy,
                    Option.any, specIsIAM, isIAMAuth]
                  decide
                · simp [evIAM, httpAuth, specAuthOf, hn, descTruthy, authTruthy,
                    hs, Option.any, specIsIAM, isIAMAuth]
            | objA t n r =>
                cases t with
                | none =>
                    simp [evIAM, httpAuth, specAuthOf, hn, descTruthy,
                      authTruthy, Option.any, specIsIAM, isIAMAuth, strTruthy]
                | some ts =>
                    by_cases ht : ts = ""
                    · subst ht
                      simp [evIAM, httpAuth, specAuthOf, hn, descTruthy,
                        authTruthy, Option.any, specIsIAM, isIAMAuth, strTruthy]
                      decide
                    · simp [evIAM, httpAuth, specAuthOf, hn, descTruthy,
                        authTruthy, Option.any, specIsIAM, isIAMAuth, strTruthy,
                        ht]
  · simp [evIAM, httpAuth, specAuthOf, hn]

/-- C3: `hasIAMAuthorizer` is true exactly when some http event binding
carries an authorizer that is the string "AWS_IAM" case-insensitively or an
object whose `type` field equals "AWS_IAM" case-insensitively; and a service
whose only event is an http event with authorizer "AWS_IAM" gets flags
`(true, false, false)`. -/
theorem hasIAMAuthorizer_iff_spec (fs : List FunctionSpec) :
    ((authFlags fs).hasIAMAuthorizer =
        (specHttpAuthorizers fs).any specIsIAM) ∧
    authFlags [{ events := some [⟨"http", .objD (some (.strA "AWS_IAM"))⟩] }] =
      ⟨true, false, false⟩ := by
  constructor
  · rw [authFlags_eq_any]
    show (allEventBindings fs).any evIAM = _
    rw [specHttpAuthorizers, any_filterMap]
    have h : evIAM = fun e => (specAuthOf e).any specIsIAM :=
      funext evIAM_eq_spec
    rw [h]
  · decide

/-- Witness for C3 at a one-function service with a lowercase "aws_iam"
string authorizer. -/
theorem hasIAMAuthorizer_iff_spec_witness :
    (authFlags [{ events := some [⟨"http",
        .objD (some (.strA "aws_iam"))⟩] }]).hasIAMAuthorizer = true := by
  rw [(hasIAMAuthorizer_iff_spec
    [{ events := some [⟨"http", .objD (some (.strA "aws_iam"))⟩] }]).1]
  decide

/-- C4: a string authorizer containing "arn:aws:cognito-idp" sets the Cognito
flag and never the custom flag; an object authorizer whose `arn` contains
that substring sets the Cognito flag; a service whose only event is an http
event with such a string authorizer gets flags `(false, false, true)`. -/
theorem cognito_string_not_custom
    (s : String) (t n : Option String) (a : String)
    (hs : containsSub s "arn:aws:cognito-idp" = true)
    (ha : containsSub a "arn:aws:cognito-idp" = true) :
    (isCognitoAuth (.strA s) = true ∧ isCustomAuth (.strA s) = false) ∧
    isCognitoAuth (.objA t n (some a)) = true ∧
    authFlags [{ events := some [⟨"http", .objD (some (.strA
        "arn:aws:cognito-idp:us-east-1:xxx:userpool/X"))⟩] }] =
      ⟨false, false, true⟩ := by
  refine ⟨⟨by simp [isCognitoAuth, hs], by simp [isCustomAuth, hs]⟩, ?_, ?_⟩
  · have hne : a ≠ "" := by
      intro h
      subst h
      exact absurd ha (by decide)
    simp [isCognitoAuth, strTruthy, hne, ha]
  · decide

/-- Witness for C4 at concrete Cognito user-pool ARNs. -/
theorem cognito_string_not_custom_witness :
    (isCognitoAuth (.strA "arn:aws:cognito-idp:eu-west-1:99:userpool/P") = true ∧
      isCustomAuth (.strA "arn:aws:cognito-idp:eu-west-1:99:userpool/P") = false) ∧
    isCognitoAuth (.objA none none
      (some "arn:aws:cognito-idp:eu-west-1:99:userpool/P")) = true ∧
    authFlags [{ events := some [⟨"http", .objD (some (.strA
        "arn:aws:cognito-idp:us-east-1:xxx:userpool/X"))⟩] }] =
      ⟨false, false, true⟩ :=
  cognito_string_not_custom
    "arn:aws:cognito-idp:eu-west-1:99:userpool/P" none none
    "arn:aws:cognito-idp:eu-west-1:99:userpool/P"
    (by decide) (by decide)

/-- Looking up after one tally step: the added name's count grows by one
(starting from 1), other names are untouched. -/
theorem lookupC_tallyAdd (t : List (String × Nat)) (n m : String) :
    lookupC (tallyAdd t n) m =
      if m = n then some ((lookupC t n).getD 0 + 1) else lookupC t m := by
  induction t with
  | nil =>
      by_cases h : m = n <;> simp [tallyAdd, lookupC, h]
      · intro hc
        exact absurd hc.symm h
  | cons p rest ih =>
      obtain ⟨a, c⟩ := p
      by_cases ha : a = n
      · subst ha
        by_cases hm : m = a
        · subst hm
          simp [tallyAdd, lookupC]
        · have ham : ¬a = m := fun h => hm h.symm
          simp [tallyAdd, lookupC, hm, ham]
      · by_cases hm : m = n
        · subst hm
          have ham : ¬a = m := ha
          simp [tallyAdd, lookupC, ha, ham, ih]
        · by_cases ham : a = m <;> simp [tallyAdd, lookupC, ha, ham, ih, hm]

/-- `addCount` by zero is the identity. -/
theorem addCount_zero (o : Option Nat) : addCount o 0 = o := by
  cases o <;> simp [addCount]

/-- Lookup in a tally fold: the starting count plus the number of remaining
occurrences. -/
theorem lookupC_foldl_tallyAdd (l : List String) (t : List (String × Nat))
    (n : String) :
    lookupC (l.foldl tallyAdd t) n = addCount (lookupC t n) (l.count n) := by
  induction l generalizing t with
  | nil => simp [addCount_zero]
  | cons a l ih =>
      rw [List.foldl_cons, ih, lookupC_tallyAdd]
      by_cases h : n = a
      · rw [if_pos h, h]
        have hc : (a :: l).count a = l.count a + 1 := by
          simp [List.count_cons]
        rw [hc]
        cases ho : lookupC t a <;> simp [addCount] <;> omega
      · have hc : (a :: l).count n = l.count n := by
          simp [List.count_cons, h]
        rw [if_neg h, hc]

/-- Lookup in the tally of a name list: exactly the occurrence count. -/
theorem lookupC_tally (l : List String) (n : String) :
    lookupC (l.foldl tallyAdd []) n =
      if l.count n = 0 then none else some (l.count n) := by
  rw [lookupC_foldl_tallyAdd]
  simp [lookupC, addCount]

/-- The key list after one tally step. -/
theorem tallyAdd_keys (t : List (String × Nat)) (n : String) :
    (tallyAdd t n).map Prod.fst =
      if n ∈ t.map Prod.fst then t.map Prod.fst
      else t.map Prod.fst ++ [n] := by
  induction t with
  | nil => simp [tallyAdd]
  | cons p rest ih =>
      obtain ⟨a, c⟩ := p
      by_cases ha : a = n
      · subst ha
        simp [tallyAdd]
      · have han : ¬n = a := fun h => ha h.symm
        by_cases hm : n ∈ rest.map Prod.fst <;>
          simp [tallyAdd, ha, han, hm, ih]

/-- A tally step keeps the keys duplicate-free. -/
theorem tallyAdd_nodup (t : List (String × Nat)) (n : String)
    (h : (t.map Prod.fst).Nodup) : ((tallyAdd t n).map Prod.fst).Nodup := by
  rw [tallyAdd_keys]
  by_cases hm : n ∈ t.map Prod.fst
  · simpa [hm] using h
  · simp only [hm, if_false]
    simp [List.nodup_append, h, hm]

/-- The tally fold keeps the keys duplicate-free. -/
theorem foldl_tallyAdd_nodup (l : List String) (t : List (String × Nat))
    (h : (t.map Prod.fst).Nodup) :
    ((l.foldl tallyAdd t).map Prod.fst).Nodup := by
  induction l generalizing t with
  | nil => exact h
  | cons a l ih => exact ih (tallyAdd t a) (tallyAdd_nodup t a h)

/-- A lookup misses exactly the non-keys. -/
theorem lookupC_eq_none_iff (t : List (String × Nat)) (n : String) :
    lookupC t n = none ↔ n ∉ t.map Prod.fst := by
  induction t with
  | nil => simp [lookupC]
  | cons p rest ih =>
      obtain ⟨a, c⟩ := p
      by_cases h : a = n
      · subst h
        simp [lookupC]
      · have hn : ¬n = a := fun hh => h hh.symm
        simp [lookupC, h, hn, ih]

/-- With duplicate-free keys, every entry is found by lookup. -/
theorem lookupC_of_mem (t : List (String × Nat)) (p : String × Nat)
    (hm : p ∈ t) (hn : (t.map Prod.fst).Nodup) : lookupC t p.1 = some p.2 := by
  induction t with
  | nil => cases hm
  | cons q rest ih =>
      obtain ⟨a, c⟩ := q
      rw [List.map_cons] at hn
      have hparts := List.nodup_cons.mp hn
      rcases List.mem_cons.mp hm with h | h
      · subst h
        simp [lookupC]
      · have hkey : p.1 ∈ rest.map Prod.fst :=
          List.mem_map.mpr ⟨p, h, rfl⟩
        have hne : ¬a = p.1 := fun hh => hparts.1 (hh ▸ hkey)
        simp only [lookupC, if_neg hne]
        exact ih h hparts.2

/-- The tally keys are duplicate-free. -/
theorem numberOfEventsPerType_keys_nodup (fs : List FunctionSpec) :
    ((numberOfEventsPerType fs).map Prod.fst).Nodup :=
  foldl_tallyAdd_nodup (allEventNames fs) [] (by simp)

/-- Lookup in the service tally: the occurrence count among all event names. -/
theorem lookupC_numberOfEventsPerType (fs : List FunctionSpec) (n : String) :
    lookupC (numberOfEventsPerType fs) n =
      if (allEventNames fs).count n = 0 then none
      else some ((allEventNames fs).count n) :=
  lookupC_tally (allEventNames fs) n

/-- The tally keys are exactly the event-type names of the service. -/
theorem numberOfEventsPerType_keys_mem (fs : List FunctionSpec) (n : String) :
    n ∈ (numberOfEventsPerType fs).map Prod.fst ↔ n ∈ allEventNames fs := by
  constructor
  · intro hk
    by_contra hnm
    have hc : (allEventNames fs).count n = 0 := List.count_eq_zero.mpr hnm
    have hnone : lookupC (numberOfEventsPerType fs) n = none := by
      rw [lookupC_numberOfEventsPerType, if_pos hc]
    exact (lookupC_eq_none_iff _ n).mp hnone hk
  · intro hm
    by_contra hk
    have hnone := (lookupC_eq_none_iff (numberOfEventsPerType fs) n).mpr hk
    rw [lookupC_numberOfEventsPerType] at hnone
    by_cases hc : (allEventNames fs).count n = 0
    · exact (List.count_eq_zero.mp hc) hm
    · rw [if_neg hc] at hnone
      simp at hnone

/-- Every tally entry's count is the service-wide occurrence count of its
name. -/
theorem numberOfEventsPerType_count (fs : List FunctionSpec)
    (p : String × Nat) (hm : p ∈ numberOfEventsPerType fs) :
    p.2 = (allEventNames fs).count p.1 := by
  have hl := lookupC_of_mem (numberOfEventsPerType fs) p hm
    (numberOfEventsPerType_keys_nodup fs)
  rw [lookupC_numberOfEventsPerType] at hl
  by_cases hc : (allEventNames fs).count p.1 = 0
  · rw [if_pos hc] at hl
    simp at hl
  · rw [if_neg hc] at hl
    exact (Option.some_inj.mp hl).symm

/-- C5: the tally has duplicate-free names covering exactly the event-type
names of the service, each with the service-wide binding count; for two
functions each declaring one "http" and one "s3" event it is exactly
`{http: 2, s3: 2}`. -/
theorem numberOfEventsPerType_spec (fs : List FunctionSpec) :
    ((numberOfEventsPerType fs).map Prod.fst).Nodup ∧
    (∀ n : String,
        n ∈ (numberOfEventsPerType fs).map Prod.fst ↔ n ∈ allEventNames fs) ∧
    (∀ p : String × Nat, p ∈ numberOfEventsPerType fs →
        p.2 = (allEventNames fs).count p.1) ∧
    ("http", 2) ∈ numberOfEventsPerType exTwoFuncs ∧
    ("s3", 2) ∈ numberOfEventsPerType exTwoFuncs ∧
    (numberOfEventsPerType exTwoFuncs).length = 2 :=
  ⟨numberOfEventsPerType_keys_nodup fs,
   numberOfEventsPerType_keys_mem fs,
   numberOfEventsPerType_count fs,
   by decide, by decide, by decide⟩

/-- Witness for C5: the count of the concrete "http" tally entry. -/
theorem numberOfEventsPerType_spec_witness :
    2 = (allEventNames exTwoFuncs).count "http" :=
  (numberOfEventsPerType_spec exTwoFuncs).2.2.1 ("http", 2) (by decide)

/-- C10: the payload's `numberOfEvents` field is the length of
`numberOfEventsPerType`, that is the number of distinct event-type names of
the service, not the total number of bindings; one function with three
"http" events gives `numberOfEvents = 1` while it has 3 bindings. -/
theorem numberOfEvents_counts_distinct_types :
    (∀ (config : Config) (serverless : ServerlessInput) (ctx : Option String),
        (buildData config serverless ctx).properties.events.numberOfEvents =
          (numberOfEventsPerType serverless.service.functions).length) ∧
    (∀ fs : List FunctionSpec,
        (numberOfEventsPerType fs).length =
          ((allEventNames fs).dedup).length) ∧
    (numberOfEventsPerType exThreeHttp).length = 1 ∧
    (allEventBindings exThreeHttp).length = 3 := by
  refine ⟨fun _ _ _ => rfl, ?_, by decide, by decide⟩
  intro fs
  have hkeys := numberOfEventsPerType_keys_nodup fs
  have hfin : ((numberOfEventsPerType fs).map Prod.fst).toFinset =
      (allEventNames fs).toFinset := by
    apply Finset.ext
    intro x
    simp only [List.mem_toFinset]
    exact numberOfEventsPerType_keys_mem fs x
  calc (numberOfEventsPerType fs).length
      = ((numberOfEventsPerType fs).map Prod.fst).length :=
        (List.length_map _ _).symm
    _ = ((numberOfEventsPerType fs).map Prod.fst).toFinset.card :=
        (List.toFinset_card_of_nodup hkeys).symm
    _ = (allEventNames fs).toFinset.card := by rw [hfin]
    _ = ((allEventNames fs).dedup).length := List.card_toFinset _

/-- The number of inner sequences equals the number of functions with a
truthy `events` field. -/
theorem length_eventLists (hs : List FunctionSpec) :
    (eventLists hs).length = hs.countP (fun x => x.events.isSome) := by
  induction hs with
  | nil => rfl
  | cons a l ih =>
      cases h : a.events <;>
        simp [eventLists, List.filterMap_cons, h, List.countP_cons, ih] <;>
        simp [eventLists] at ih <;> omega

/-- C7 counterexample: a function declaring an empty `events` list declares no
events (it contributes no event names), yet it does get an (empty) entry in
`eventNamesPerFunction` — the JS truthiness check `if (func.events)` passes
for an empty array. -/
theorem eventNamesPerFunction_empty_list_counterexample :
    allEventNames [exEmptyEventsFunc] = [] ∧
    eventNamesPerFunction [exEmptyEventsFunc] = [[]] ∧
    ([[]] : List (List String)) ≠ [] := by
  refine ⟨rfl, rfl, by simp⟩

/-- C7 amended: a function whose `events` field is absent contributes nothing
to the tally and gets no entry in `eventNamesPerFunction`; a function whose
`events` field is a declared empty list contributes nothing to the tally but
gets an empty entry; `eventNamesPerFunction` has one inner sequence per
function whose `events` field is present, in declaration order. -/
theorem eventNamesPerFunction_absent_events (f : FunctionSpec)
    (fs : List FunctionSpec) (g : FunctionSpec) (gs : List FunctionSpec)
    (hf : f.events = none) (hg : g.events = some []) :
    eventNamesPerFunction (f :: fs) = eventNamesPerFunction fs ∧
    numberOfEventsPerType (f :: fs) = numberOfEventsPerType fs ∧
    eventNamesPerFunction (g :: gs) = [] :: eventNamesPerFunction gs ∧
    numberOfEventsPerType (g :: gs) = numberOfEventsPerType gs ∧
    (∀ hs : List FunctionSpec, (eventNamesPerFunction hs).length =
        hs.countP (fun x => x.events.isSome)) := by
  refine ⟨?_, ?_, ?_, ?_, ?_⟩
  · simp [eventNamesPerFunction, eventLists, List.filterMap_cons, hf]
  · simp [numberOfEventsPerType, allEventNames, eventNamesPerFunction,
      eventLists, List.filterMap_cons, hf]
  · simp [eventNamesPerFunction, eventLists, List.filterMap_cons, hg]
  · simp [numberOfEventsPerType, allEventNames, eventNamesPerFunction,
      eventLists, List.filterMap_cons, hg]
  · intro hs
    simp [eventNamesPerFunction, length_eventLists hs]

/-- Witness for the amended C7 at one absent-events function and one
empty-events function. -/
theorem eventNamesPerFunction_absent_events_witness :
    eventNamesPerFunction [({} : FunctionSpec)] =
      eventNamesPerFunction ([] : List FunctionSpec) ∧
    eventNamesPerFunction [exEmptyEventsFunc] =
      [] :: eventNamesPerFunction ([] : List FunctionSpec) :=
  ⟨(eventNamesPerFunction_absent_events {} [] exEmptyEventsFunc [] rfl rfl).1,
   (eventNamesPerFunction_absent_events {} [] exEmptyEventsFunc [] rfl
      rfl).2.2.1⟩

end Serverless
